import Mathlib

/-!
A shallow embedding of the lab-works-tracking data-access layer
(src/database.py) and of the AI-assist client (src/groq_client.py).

The three SQLite tables become lists of records inside a `DB` value; SQL
`CURRENT_TIMESTAMP` becomes an abstract `Nat` instant passed in by the
caller as `now`, and `AUTOINCREMENT` ids become one plus the largest id in
the table.  Each Python function is transcribed as a pure function on `DB`.
The network call of the Groq client is abstracted by a `NetOutcome`
parameter describing what the single `requests.post` would produce.
-/

/-- ASCII lowercasing of one character: what Python str.lower and SQLite
LOWER both do on the ASCII range. -/
def lowerChar (c : Char) : Char :=
  if 65 ≤ c.toNat ∧ c.toNat ≤ 90 then Char.ofNat (c.toNat + 32) else c

/-- Python str.lower, restricted to ASCII case mapping. -/
def strLower (s : String) : String := ⟨s.data.map lowerChar⟩

/-- The whitespace characters Python str.strip removes. -/
def isSpaceChar (c : Char) : Bool := c == ' ' || c == '\t' || c == '\n' || c == '\r'

/-- Python str.strip: drop whitespace from both ends. -/
def strTrim (s : String) : String :=
  ⟨((s.data.dropWhile isSpaceChar).reverse.dropWhile isSpaceChar).reverse⟩

/-- A row of the users table. -/
structure User where
  id : Nat
  name : String
  email : String
  role : String
  passwordHash : String
  createdAt : Nat
  deriving Repr, DecidableEq

/-- A row of the goals table. -/
structure Goal where
  id : Nat
  userId : Nat
  title : String
  description : Option String
  dueDate : Option String
  status : String
  visibility : String
  createdAt : Nat
  lastUpdated : Nat
  deriving Repr, DecidableEq

/-- A row of the activities table. -/
structure Activity where
  id : Nat
  goalId : Nat
  userId : Nat
  entryText : String
  progress : Option Int
  aiGenerated : Bool
  createdAt : Nat
  deriving Repr, DecidableEq

/-- The whole store: the three tables. -/
structure DB where
  users : List User
  goals : List Goal
  activities : List Activity
  deriving Repr, DecidableEq

/-- Next AUTOINCREMENT id for the users table. -/
def nextUserId (db : DB) : Nat :=
  db.users.foldr (fun u m => max u.id m) 0 + 1

/-- Next AUTOINCREMENT id for the goals table. -/
def nextGoalId (db : DB) : Nat :=
  db.goals.foldr (fun g m => max g.id m) 0 + 1

/-- Next AUTOINCREMENT id for the activities table. -/
def nextActivityId (db : DB) : Nat :=
  db.activities.foldr (fun a m => max a.id m) 0 + 1

/-- database.py `create_user`: INSERT a user with the name stripped and the
email stripped and lowercased; the UNIQUE constraint on the email column
rejects the insert when the stored column already holds that exact string.
Returns the fresh row id on success. -/
def create_user (name email role passwordHash : String) (db : DB) (now : Nat) :
    Except String (DB × Nat) :=
  let e := strLower (strTrim email)
  if db.users.any (fun u => u.email == e) then
    Except.error "UNIQUE constraint failed: users.email"
  else
    let uid := nextUserId db
    Except.ok
      ({ db with users := db.users ++ [⟨uid, strTrim name, e, role, passwordHash, now⟩] }, uid)

/-- database.py `fetch_user_by_email`: SELECT * FROM users WHERE LOWER(email)
equals the stripped, lowercased argument. -/
def fetch_user_by_email (email : String) (db : DB) : Option User :=
  db.users.find? (fun u => strLower u.email == strLower (strTrim email))

/-- database.py `create_goal`: INSERT a goal; the title is stripped, and the
description is stored as NULL when it is None or falsy (the empty string),
otherwise stripped. -/
def create_goal (userId : Nat) (title : String) (description dueDate : Option String)
    (status visibility : String) (db : DB) (now : Nat) : DB × Nat :=
  let gid := nextGoalId db
  let desc : Option String :=
    match description with
    | none => none
    | some d => if d = "" then none else some (strTrim d)
  ({ db with goals :=
      db.goals ++ [⟨gid, userId, strTrim title, desc, dueDate, status, visibility, now, now⟩] },
   gid)

/-- database.py `update_goal_status`: UPDATE goals SET status, last_updated =
now WHERE id = goalId.  Rows with another id are untouched; when no row
matches, the statement affects zero rows. -/
def update_goal_status (goalId : Nat) (status : String) (db : DB) (now : Nat) : DB :=
  { db with goals := db.goals.map (fun g =>
      if g.id == goalId then { g with status := status, lastUpdated := now } else g) }

/-- The activities of one goal (the rows the per-goal LEFT JOIN subquery
groups). -/
def goalActivities (db : DB) (goalId : Nat) : List Activity :=
  db.activities.filter (fun a => a.goalId == goalId)

/-- COUNT(*) of the activities of a goal, COALESCEd to 0 when the goal has
none. -/
def updatesCount (db : DB) (goalId : Nat) : Nat :=
  (goalActivities db goalId).length

/-- COALESCE(MAX(activities.created_at), goals.last_updated) for one goal. -/
def latestUpdate (db : DB) (g : Goal) : Nat :=
  match (goalActivities db g.id).map (fun a => a.createdAt) with
  | [] => g.lastUpdated
  | t :: ts => ts.foldl max t

/-- Descending order on a Nat sort key: the ORDER BY ... DESC relation. -/
def keyDesc {α : Type} (k : α → Nat) (a b : α) : Prop := k b ≤ k a

instance {α : Type} (k : α → Nat) : DecidableRel (keyDesc k) :=
  fun _ _ => Nat.decLe _ _

instance {α : Type} (k : α → Nat) : IsTotal α (keyDesc k) :=
  ⟨fun a b => Nat.le_total (k b) (k a)⟩

instance {α : Type} (k : α → Nat) : IsTrans α (keyDesc k) :=
  ⟨fun _ _ _ h1 h2 => Nat.le_trans h2 h1⟩

/-- A result row of `list_goals_for_user`: the goal's columns plus the two
computed columns. -/
structure UserGoalRow where
  goal : Goal
  updatesCount : Nat
  latestUpdate : Nat
  deriving Repr, DecidableEq

/-- database.py `list_goals_for_user`: the goals owned by the user, annotated
with updates_count and latest_update, ORDER BY goals.last_updated DESC. -/
def list_goals_for_user (userId : Nat) (db : DB) : List UserGoalRow :=
  List.insertionSort (keyDesc (fun r : UserGoalRow => r.goal.lastUpdated))
    ((db.goals.filter (fun g => g.userId == userId)).map
      (fun g => ⟨g, updatesCount db g.id, latestUpdate db g⟩))

/-- A result row of `get_all_goals`: the goal's columns, the owner's name and
role from the JOIN with users, and the two computed columns. -/
structure GoalRow where
  goal : Goal
  userName : String
  userRole : String
  updatesCount : Nat
  latestUpdate : Nat
  deriving Repr, DecidableEq

/-- The WHERE clause `get_all_goals` builds: no clause for a mentor; only
public goals for an anonymous viewer; public or own goals otherwise. -/
def goalVisible (viewerRole : String) (viewerId : Option Nat) (g : Goal) : Bool :=
  if viewerRole = "mentor" then true
  else
    match viewerId with
    | none => g.visibility == "public"
    | some v => g.visibility == "public" || g.userId == v

/-- database.py `get_all_goals`: goals passing the visibility clause, JOINed
with their owner row in users, annotated, ORDER BY goals.last_updated DESC. -/
def get_all_goals (viewerRole : String) (viewerId : Option Nat) (db : DB) : List GoalRow :=
  List.insertionSort (keyDesc (fun r : GoalRow => r.goal.lastUpdated))
    ((db.goals.filter (goalVisible viewerRole viewerId)).flatMap
      (fun g => (db.users.filter (fun u => u.id == g.userId)).map
        (fun u => ⟨g, u.name, u.role, updatesCount db g.id, latestUpdate db g⟩)))

/-- The auto-completion trigger condition of `log_activity`:
progress is not None and progress >= 100. -/
def progressHigh : Option Int → Bool
  | none => false
  | some p => 100 ≤ p

/-- database.py `log_activity`: INSERT the activity with the entry text
stripped, bump the goal's last_updated to now, and when progress is present
and at least 100, UPDATE the goal's status to Completed where it is not
already Completed. -/
def log_activity (goalId userId : Nat) (entryText : String) (progress : Option Int)
    (aiGenerated : Bool) (db : DB) (now : Nat) : DB × Nat :=
  let aid := nextActivityId db
  let acts := db.activities ++ [⟨aid, goalId, userId, strTrim entryText, progress, aiGenerated, now⟩]
  let goals1 := db.goals.map (fun g =>
    if g.id == goalId then { g with lastUpdated := now } else g)
  let goals2 :=
    if progressHigh progress then
      goals1.map (fun g =>
        if g.id == goalId && g.status != "Completed" then { g with status := "Completed" } else g)
    else goals1
  ({ db with goals := goals2, activities := acts }, aid)

/-- SELECT * FROM goals WHERE id = goalId (the goal a later query would read
back). -/
def findGoal (db : DB) (goalId : Nat) : Option Goal :=
  db.goals.find? (fun g => g.id == goalId)

/-- A result row of `get_recent_activity`: the activity's columns plus the
joined goal title and author name/role. -/
structure FeedRow where
  activity : Activity
  goalTitle : String
  userName : String
  userRole : String
  deriving Repr, DecidableEq

/-- The FROM/JOIN of `get_recent_activity`: each activity with its goal row
and its author row. -/
def feedJoin (db : DB) : List (Activity × Goal × User) :=
  db.activities.flatMap (fun a =>
    (db.goals.filter (fun g => g.id == a.goalId)).flatMap (fun g =>
      (db.users.filter (fun u => u.id == a.userId)).map (fun u => (a, g, u))))

/-- The WHERE clause `get_recent_activity` builds: no clause for a mentor;
only activities on public goals for an anonymous viewer; otherwise activities
on public goals or authored by the viewer (`activities.user_id = viewer`). -/
def feedClause (viewerRole : String) (viewerId : Option Nat) (x : Activity × Goal × User) : Bool :=
  if viewerRole = "mentor" then true
  else
    match viewerId with
    | none => x.2.1.visibility == "public"
    | some v => x.2.1.visibility == "public" || x.1.userId == v

/-- database.py `get_recent_activity`: the joined activities passing the
clause, ORDER BY activities.created_at DESC, LIMIT limit, projected to the
selected columns. -/
def get_recent_activity (limit : Nat) (viewerId : Option Nat) (viewerRole : String)
    (db : DB) : List FeedRow :=
  ((List.insertionSort (keyDesc (fun x : Activity × Goal × User => x.1.createdAt))
      ((feedJoin db).filter (feedClause viewerRole viewerId))).take limit).map
    (fun x => ⟨x.1, x.2.1.title, x.2.2.name, x.2.2.role⟩)

/-- Python truthiness of an optional string: None and the empty string are
falsy, any other string is truthy. -/
def pyTruthy : Option String → Bool
  | none => false
  | some s => s != ""

/-- The streamlit secrets store as `_load_key` probes it: an optional
top-level GROQ_API_KEY entry and an optional nested groq.api_key entry.
`none` models an environment where importing streamlit or touching
st.secrets raises (the bare except path). -/
structure Secrets where
  groqApiKey : Option String
  groqNested : Option String
  deriving Repr, DecidableEq

/-- The secrets-probe step of `_load_key`: the top-level entry when present
(whatever its value), else the nested entry when present, else nothing. -/
def secretsLookup : Option Secrets → Option String
  | none => none
  | some s =>
    match s.groqApiKey with
    | some k => some k
    | none => s.groqNested

/-- groq_client.py `_load_key`: a truthy explicit key wins, else a truthy
GROQ_API_KEY environment variable, else the secrets probe, else None. -/
def load_key (explicitKey envKey : Option String) (secrets : Option Secrets) :
    Option String :=
  if pyTruthy explicitKey then explicitKey
  else if pyTruthy envKey then envKey
  else secretsLookup secrets

/-- How the response body behaves under `response.json()` followed by
`data["choices"][0]["message"]["content"].strip()`:
`notJson` — `response.json()` raises JSONDecodeError, a ValueError that the
except clause (KeyError, IndexError, TypeError) does not catch;
`missingField` — the indexing raises KeyError, IndexError or TypeError,
which is caught;
`contentNonString` — the content entry exists but is not a string, so
`.strip()` raises an uncaught AttributeError;
`content s` — the expected shape, with content string s. -/
inductive BodyShape where
  | notJson
  | missingField
  | contentNonString
  | content (s : String)
  deriving Repr, DecidableEq

/-- What the single `requests.post` of `request_completion` would produce:
either the request raises a RequestException carrying a message, or a
response arrives with a status code, a body text, and the behavior of the
body under the parse-and-extract step. -/
inductive NetOutcome where
  | exc (msg : String)
  | resp (statusCode : Nat) (text : String) (body : BodyShape)
  deriving Repr, DecidableEq

/-- groq_client.py `request_completion`.  `Except.ok` is the pair the
function returns: with no truthy key, the fixed set-your-key error; on a
RequestException, a request-failed error; on a status of 400 or more, an
API error with status and body (the body is never parsed in this case); on
a parsed body whose indexing raises one of the caught
(KeyError, IndexError, TypeError), the unexpected-response error; on the
expected shape, the content, stripped, with no error.  `Except.error` is an
exception escaping the function: a below-400 response whose body is not
JSON (JSONDecodeError is not in the caught tuple) or whose content field is
not a string (`.strip()` raises AttributeError). -/
def request_completion (apiKey envKey : Option String) (secrets : Option Secrets)
    (net : NetOutcome) : Except String (Option String × Option String) :=
  let key := load_key apiKey envKey secrets
  if !pyTruthy key then
    Except.ok
      (none, some "Set GROQ_API_KEY in .streamlit/secrets.toml or as an environment variable.")
  else
    match net with
    | NetOutcome.exc msg => Except.ok (none, some ("Groq request failed: " ++ msg))
    | NetOutcome.resp status text body =>
      if 400 ≤ status then
        Except.ok (none, some ("Groq API error " ++ toString status ++ ": " ++ text))
      else
        match body with
        | BodyShape.notJson => Except.error "uncaught JSONDecodeError"
        | BodyShape.missingField => Except.ok (none, some "Unexpected response from Groq API.")
        | BodyShape.contentNonString => Except.error "uncaught AttributeError"
        | BodyShape.content c => Except.ok (some (strTrim c), none)

/-- Whether control in `request_completion` reaches the `requests.post`
call: exactly when the resolved key is truthy (the early return fires
otherwise). -/
def performsNetworkCall (apiKey envKey : Option String) (secrets : Option Secrets) : Bool :=
  pyTruthy (load_key apiKey envKey secrets)

/-! Concrete sample stores, built through the operations themselves, used by
scenario conjuncts and witnesses. -/

/-- The empty store. -/
def exDb0 : DB := ⟨[], [], []⟩

/-- The store of a successful creation, or the empty store on failure. -/
def dbOf (r : Except String (DB × Nat)) : DB :=
  match r with
  | Except.ok (d, _) => d
  | Except.error _ => exDb0

/-- Sample store: Ada (student, id 1), registered with a mixed-case email. -/
def exDbA : DB := dbOf (create_user "Ada" "Ada@Lab.Edu" "student" "h1" exDb0 1)

/-- Sample store: plus Bob (student, id 2). -/
def exDbB : DB := dbOf (create_user "Bob" "bob@lab.edu" "student" "h2" exDbA 2)

/-- Sample store: plus Mia (mentor, id 3). -/
def exDbM : DB := dbOf (create_user "Mia" "mia@lab.edu" "mentor" "h3" exDbB 3)

/-- Sample store: plus Ada's private goal (id 1), In progress. -/
def exDbG : DB := (create_goal 1 "Secret" none none "In progress" "private" exDbM 4).1

/-- Sample store: plus a progress-50 activity by Ada on goal 1. -/
def exDbL1 : DB := (log_activity 1 1 "half" (some 50) false exDbG 5).1

/-- Sample store: plus a progress-100 activity by Ada on goal 1. -/
def exDbL2 : DB := (log_activity 1 1 "done" (some 100) false exDbL1 6).1

/-- Sample store: plus an activity authored by mentor Mia on Ada's goal 1. -/
def exDbF : DB := (log_activity 1 3 "mentor note" none false exDbL2 7).1

/-- Listing scenario: goal G1 for Ada at instant 4. -/
def exDbS0 : DB := (create_goal 1 "G1" none none "Not started" "public" exDbM 4).1

/-- Listing scenario: then goal G2 for Ada at instant 5. -/
def exDbS1 : DB := (create_goal 1 "G2" none none "Not started" "public" exDbS0 5).1

/-- Listing scenario: then an activity on G1 at instant 6. -/
def exDbS2 : DB := (log_activity 1 1 "work" (some 10) false exDbS1 6).1

instance {ε α : Type} [DecidableEq ε] [DecidableEq α] : DecidableEq (Except ε α) := fun a b =>
  match a, b with
  | Except.ok x, Except.ok y =>
    if h : x = y then isTrue (by rw [h]) else isFalse (by intro hh; cases hh; exact h rfl)
  | Except.ok _, Except.error _ => isFalse (by intro hh; cases hh)
  | Except.error _, Except.ok _ => isFalse (by intro hh; cases hh)
  | Except.error e, Except.error f =>
    if h : e = f then isTrue (by rw [h]) else isFalse (by intro hh; cases hh; exact h rfl)

/-! Helper lemmas shared by the claim theorems. -/

theorem lowerChar_idem (c : Char) : lowerChar (lowerChar c) = lowerChar c := by
  unfold lowerChar
  by_cases h : 65 ≤ c.toNat ∧ c.toNat ≤ 90
  · rw [if_pos h]
    have hv : (c.toNat + 32).isValidChar := by
      left
      omega
    have ht : (Char.ofNat (c.toNat + 32)).toNat = c.toNat + 32 := by
      unfold Char.ofNat
      rw [dif_pos hv]
      simp [Char.ofNatAux, Char.toNat, UInt32.toNat, UInt32.ofNat', BitVec.toNat_ofNatLt]
    rw [if_neg]
    rw [ht]
    omega
  · rw [if_neg h, if_neg h]

theorem strLower_idem (s : String) : strLower (strLower s) = strLower s := by
  cases s with
  | mk data =>
    simp only [strLower, List.map_map]
    congr 1
    apply List.map_congr_left
    intro c _
    exact lowerChar_idem c

theorem find?_map_of_id (l : List Goal) (gid : Nat) (f : Goal → Goal)
    (hf : ∀ g, (f g).id = g.id) :
    List.find? (fun g => g.id == gid) (l.map f) =
      Option.map f (List.find? (fun g => g.id == gid) l) := by
  have hp : ((fun g : Goal => g.id == gid) ∘ f) = (fun g : Goal => g.id == gid) := by
    funext g
    simp [Function.comp, hf]
  rw [List.find?_map, hp]

theorem strTrim_of_all_space (s : String) (h : ∀ c ∈ s.data, isSpaceChar c = true) :
    strTrim s = "" := by
  cases s with
  | mk data =>
    have hd : data.dropWhile isSpaceChar = [] := List.dropWhile_eq_nil_iff.mpr h
    simp [strTrim, hd]

/-- C2: reading back the goal after `log_activity`, its last_updated is
bumped to now and its status is Completed exactly when the logged progress
is present and at least 100; otherwise the status is the prior one,
unconditionally on the prior state.  Hence progress 100 on an In-progress
goal completes it, a second progress-100 log leaves it Completed, and
progress 50 or an absent progress never changes the status. -/
theorem log_activity_status_spec (gid uid : Nat) (txt : String) (p : Option Int) (ai : Bool)
    (db : DB) (now : Nat) :
    findGoal (log_activity gid uid txt p ai db now).1 gid =
      Option.map (fun g =>
        { g with lastUpdated := now,
                 status := if progressHigh p then "Completed" else g.status })
        (findGoal db gid) := by
  have hid1 : ∀ g : Goal,
      ((fun g : Goal => if g.id == gid then { g with lastUpdated := now } else g) g).id = g.id := by
    intro g
    dsimp only
    split <;> rfl
  cases hp : progressHigh p with
  | true =>
    have hid2 : ∀ g : Goal,
        (((fun g : Goal =>
            if g.id == gid && g.status != "Completed" then { g with status := "Completed" } else g) ∘
          (fun g : Goal => if g.id == gid then { g with lastUpdated := now } else g)) g).id = g.id := by
      intro g
      dsimp only [Function.comp]
      split <;> split <;> rfl
    simp only [log_activity, findGoal, hp, if_true, List.map_map]
    rw [find?_map_of_id _ _ _ hid2]
    cases hf : db.goals.find? (fun g => g.id == gid) with
    | none => rfl
    | some g0 =>
      have hg0 : (g0.id == gid) = true := by
        have := List.find?_some hf
        simpa using this
      rcases g0 with ⟨i, u, t, d, dd, st, vis, ca, lu⟩
      simp only [Option.map_some']
      by_cases hs : st = "Completed"
      · simp [Function.comp, hg0, hs]
      · simp [Function.comp, hg0, hs]
  | false =>
    simp only [log_activity, findGoal, hp, if_false, Bool.false_eq_true]
    rw [find?_map_of_id _ _ _ hid1]
    cases hf : db.goals.find? (fun g => g.id == gid) with
    | none => rfl
    | some g0 =>
      have hg0 : g0.id = gid := by
        have := List.find?_some hf
        simpa using this
      simp [hg0]

/-- C8: update_goal_status sets the matching goal's status and bumps its
last_updated to now; it touches no other table and no other goal's row;
and when no goal has the given id it raises nothing and returns the store
entirely unchanged (the embedding is total: there is no error case). -/
theorem update_goal_status_spec (gid : Nat) (st : String) (db : DB) (now : Nat) :
    findGoal (update_goal_status gid st db now) gid =
      Option.map (fun g => { g with status := st, lastUpdated := now }) (findGoal db gid) ∧
    (update_goal_status gid st db now).users = db.users ∧
    (update_goal_status gid st db now).activities = db.activities ∧
    (∀ g ∈ db.goals, g.id ≠ gid → g ∈ (update_goal_status gid st db now).goals) ∧
    ((∀ g ∈ db.goals, g.id ≠ gid) → update_goal_status gid st db now = db) := by
  have hid : ∀ g : Goal,
      ((fun g : Goal => if g.id == gid then { g with status := st, lastUpdated := now } else g) g).id
        = g.id := by
    intro g
    dsimp only
    split <;> rfl
  refine ⟨?_, rfl, rfl, ?_, ?_⟩
  · simp only [update_goal_status, findGoal]
    rw [find?_map_of_id _ _ _ hid]
    cases hf : db.goals.find? (fun g => g.id == gid) with
    | none => rfl
    | some g0 =>
      have hg0 : g0.id = gid := by
        have := List.find?_some hf
        simpa using this
      simp [hg0]
  · intro g hg hne
    simp only [update_goal_status]
    exact List.mem_map.mpr ⟨g, hg, by simp [hne]⟩
  · intro h
    have hmap : db.goals.map
        (fun g : Goal => if g.id == gid then { g with status := st, lastUpdated := now } else g)
        = db.goals.map id := by
      apply List.map_congr_left
      intro g hg
      simp [h g hg]
    simp only [update_goal_status, hmap, List.map_id]

/-- C10: create_goal appends one goal whose stored description is NULL when
the argument is None or the empty string and the stripped argument
otherwise; in particular a whitespace-only description is stored as the
empty string, not as NULL. -/
theorem create_goal_description_spec (uid : Nat) (title : String)
    (descr dd : Option String) (st vis : String) (db : DB) (now : Nat) :
    ∃ g : Goal,
      (create_goal uid title descr dd st vis db now).1.goals = db.goals ++ [g] ∧
      (descr = none → g.description = none) ∧
      (descr = some "" → g.description = none) ∧
      (∀ d, descr = some d → d ≠ "" → g.description = some (strTrim d)) ∧
      (∀ d, descr = some d → d ≠ "" → (∀ c ∈ d.data, isSpaceChar c = true) →
        g.description = some "") := by
  refine ⟨_, rfl, ?_, ?_, ?_, ?_⟩
  · intro h
    simp [h]
  · intro h
    simp [h]
  · intro d hd hne
    simp [hd, hne]
  · intro d hd hne hsp
    simp [hd, hne, strTrim_of_all_space d hsp]

/-- C5: the bearer credential is resolved in the order explicit parameter,
then environment variable, then secrets store, then absence; and when
nothing is found anywhere, request_completion returns no content together
with the message telling the user to set GROQ_API_KEY, and control never
reaches the network call. -/
theorem load_key_resolution_spec (ak ek : Option String) (s : Option Secrets)
    (net : NetOutcome) :
    (pyTruthy ak = true → load_key ak ek s = ak) ∧
    (pyTruthy ak = false → pyTruthy ek = true → load_key ak ek s = ek) ∧
    (pyTruthy ak = false → pyTruthy ek = false → load_key ak ek s = secretsLookup s) ∧
    (pyTruthy ak = false → pyTruthy ek = false → secretsLookup s = none →
      load_key ak ek s = none) ∧
    (load_key ak ek s = none →
      request_completion ak ek s net = Except.ok
        (none, some "Set GROQ_API_KEY in .streamlit/secrets.toml or as an environment variable.") ∧
      performsNetworkCall ak ek s = false) := by
  refine ⟨?_, ?_, ?_, ?_, ?_⟩
  · intro h
    simp [load_key, h]
  · intro h1 h2
    simp [load_key, h1, h2]
  · intro h1 h2
    simp [load_key, h1, h2]
  · intro h1 h2 h3
    simp [load_key, h1, h2, h3]
  · intro h
    have hk : pyTruthy (load_key ak ek s) = false := by
      rw [h]
      rfl
    exact ⟨by simp [request_completion, hk], by simp [performsNetworkCall, hk]⟩

/-- C6 counterexample: with a truthy key and a 2xx response whose body is
not JSON, request_completion does not return a pair at all — the
JSONDecodeError escapes the except clause, which catches only KeyError,
IndexError and TypeError — so the claim that every call yields a pair with
exactly one component present is false of the program. -/
theorem request_completion_raises_cex :
    request_completion (some "k") none none (NetOutcome.resp 200 "not json" BodyShape.notJson) =
      Except.error "uncaught JSONDecodeError" := by
  decide

/-- C6 amended: whenever request_completion returns, exactly one of content
and error is present, and an error pair appears precisely when the
credential resolves to nothing truthy, the request raises, the response
status is 400 or more, or the parsed body's field access raises one of the
caught KeyError, IndexError, TypeError; however, a below-400 response whose
body is not JSON or whose content field is not a string raises an uncaught
exception instead of returning. -/
theorem request_completion_result_amended (ak ek : Option String) (s : Option Secrets)
    (net : NetOutcome) :
    (∀ r, request_completion ak ek s net = Except.ok r →
      ((r.1.isSome ∧ r.2 = none) ∨ (r.1 = none ∧ r.2.isSome))) ∧
    ((∃ r, request_completion ak ek s net = Except.ok r ∧ r.2.isSome) ↔
      (pyTruthy (load_key ak ek s) = false ∨
       (∃ m, net = NetOutcome.exc m) ∨
       (∃ st t b, net = NetOutcome.resp st t b ∧ 400 ≤ st) ∨
       (∃ st t, net = NetOutcome.resp st t BodyShape.missingField))) ∧
    ((∃ m, request_completion ak ek s net = Except.error m) ↔
      (pyTruthy (load_key ak ek s) = true ∧
       (∃ st t, (net = NetOutcome.resp st t BodyShape.notJson ∨
                 net = NetOutcome.resp st t BodyShape.contentNonString) ∧ st < 400))) := by
  cases hk : pyTruthy (load_key ak ek s) with
  | false =>
    simp [request_completion, hk]
  | true =>
    cases net with
    | exc m =>
      simp [request_completion, hk]
    | resp st t b =>
      by_cases hst : 400 ≤ st
      · have hst2 : ¬ st < 400 := by omega
        simp [request_completion, hk, hst, hst2]
        rintro x y (⟨rfl, -, -⟩ | ⟨rfl, -, -⟩) <;> exact hst
      · have hlt : st < 400 := by omega
        cases b with
        | notJson =>
          simp [request_completion, hk, hst, hlt]
        | missingField =>
          simp [request_completion, hk, hst]
        | contentNonString =>
          simp [request_completion, hk, hst, hlt]
        | content c =>
          simp [request_completion, hk, hst]

theorem create_user_ok_parts (name email role ph : String) (db : DB) (now : Nat)
    (db2 : DB) (uid : Nat)
    (h : create_user name email role ph db now = Except.ok (db2, uid)) :
    db2.users = db.users ++ [⟨uid, strTrim name, strLower (strTrim email), role, ph, now⟩] ∧
    db2.goals = db.goals ∧ db2.activities = db.activities ∧
    (db.users.any (fun u => u.email == strLower (strTrim email))) = false := by
  by_cases hany : (db.users.any (fun u => u.email == strLower (strTrim email))) = true
  · simp [create_user, hany] at h
  · have hany2 : (db.users.any (fun u => u.email == strLower (strTrim email))) = false := by
      revert hany
      cases db.users.any (fun u => u.email == strLower (strTrim email)) <;> simp
    simp [create_user, hany2] at h
    obtain ⟨h1, h2⟩ := h
    subst h2
    rw [← h1]
    exact ⟨rfl, rfl, rfl, hany2⟩

/-- C4: create_user stores the name stripped and the email stripped and
lowercased; under the invariant that stored emails are lowercase (which the
operation itself maintains) it fails with the uniqueness violation exactly
when the email is already registered in any letter case, and on failure the
transaction yields no new store, so every existing record is untouched and
nothing is inserted; in particular a second registration whose email
differs only in case or surrounding whitespace from a successful first one
is rejected as duplicate. -/
theorem create_user_unique_spec (name email role ph : String) (db : DB) (now : Nat) :
    (∀ db2 uid, create_user name email role ph db now = Except.ok (db2, uid) →
      db2.users = db.users ++ [⟨uid, strTrim name, strLower (strTrim email), role, ph, now⟩] ∧
      db2.goals = db.goals ∧ db2.activities = db.activities) ∧
    ((∀ u ∈ db.users, strLower u.email = u.email) →
      ((∃ u ∈ db.users, strLower u.email = strLower (strTrim email)) ↔
        create_user name email role ph db now =
          Except.error "UNIQUE constraint failed: users.email")) ∧
    (∀ db2 uid, create_user name email role ph db now = Except.ok (db2, uid) →
      ∀ email2, strLower (strTrim email2) = strLower (strTrim email) →
        ∀ name2 role2 ph2 now2,
          create_user name2 email2 role2 ph2 db2 now2 =
            Except.error "UNIQUE constraint failed: users.email") := by
  refine ⟨?_, ?_, ?_⟩
  · intro db2 uid h
    obtain ⟨h1, h2, h3, -⟩ := create_user_ok_parts name email role ph db now db2 uid h
    exact ⟨h1, h2, h3⟩
  · intro hlow
    constructor
    · rintro ⟨u, hu, he⟩
      have hue : u.email = strLower (strTrim email) := by
        rw [← hlow u hu, he]
      have hany : (db.users.any (fun u => u.email == strLower (strTrim email))) = true :=
        List.any_eq_true.mpr ⟨u, hu, by simp [hue]⟩
      simp [create_user, hany]
    · intro herr
      by_cases hany : (db.users.any (fun u => u.email == strLower (strTrim email))) = true
      · obtain ⟨u, hu, hpe⟩ := List.any_eq_true.mp hany
        refine ⟨u, hu, ?_⟩
        have hue : u.email = strLower (strTrim email) := by simpa using hpe
        rw [hlow u hu, hue]
      · simp [create_user, hany] at herr
  · intro db2 uid h email2 he name2 role2 ph2 now2
    obtain ⟨h1, -, -, -⟩ := create_user_ok_parts name email role ph db now db2 uid h
    have hmem : (⟨uid, strTrim name, strLower (strTrim email), role, ph, now⟩ : User) ∈ db2.users := by
      rw [h1]
      simp
    have hany2 : (db2.users.any (fun u => u.email == strLower (strTrim email2))) = true :=
      List.any_eq_true.mpr ⟨_, hmem, by simp [he]⟩
    simp [create_user, hany2]

/-- C9: after a successful create_user with email e, fetch_user_by_email
returns exactly the new user's record for every query string equal to e up
to letter case and surrounding whitespace, under the invariant that stored
emails are lowercase (which create_user itself maintains). -/
theorem fetch_after_create_spec (name email role ph : String) (db : DB) (now : Nat)
    (db2 : DB) (uid : Nat)
    (hlow : ∀ u ∈ db.users, strLower u.email = u.email)
    (hok : create_user name email role ph db now = Except.ok (db2, uid)) :
    ∀ v, strLower (strTrim v) = strLower (strTrim email) →
      fetch_user_by_email v db2 =
        some ⟨uid, strTrim name, strLower (strTrim email), role, ph, now⟩ := by
  obtain ⟨h1, -, -, hany⟩ := create_user_ok_parts name email role ph db now db2 uid hok
  intro v hv
  rw [fetch_user_by_email, h1, List.find?_append]
  have hnone : db.users.find? (fun u => strLower u.email == strLower (strTrim v)) = none := by
    rw [List.find?_eq_none]
    intro u hu hp
    have hue : u.email = strLower (strTrim email) := by
      have : strLower u.email = strLower (strTrim v) := by simpa using hp
      rw [← hlow u hu, this, hv]
    have : (db.users.any (fun u => u.email == strLower (strTrim email))) = true :=
      List.any_eq_true.mpr ⟨u, hu, by simp [hue]⟩
    rw [this] at hany
    cases hany
  rw [hnone, Option.none_or]
  have hpnew : (strLower (strLower (strTrim email)) == strLower (strTrim v)) = true := by
    rw [strLower_idem, hv]
    simp
  simp [List.find?, hpnew]

theorem fetch_after_create_spec_witness :
    fetch_user_by_email "  ADA@LAB.EDU " exDbA =
      some ⟨1, strTrim "Ada", strLower (strTrim "Ada@Lab.Edu"), "student", "h1", 1⟩ :=
  fetch_after_create_spec "Ada" "Ada@Lab.Edu" "student" "h1" exDb0 1 exDbA 1
    (by decide) (by decide) "  ADA@LAB.EDU " (by decide)

/-- C7: list_goals_for_user returns exactly the goals owned by the user,
each annotated with its total activity count and its latest activity
timestamp, the latter falling back to the goal's own last_updated when it
has no activities, ordered by last_updated descending; and in the concrete
scenario that creates G1 then G2 for one user and then logs an activity on
G1, G1 sorts before G2. -/
theorem list_goals_for_user_spec (uid : Nat) (db : DB) :
    (∀ r, r ∈ list_goals_for_user uid db ↔
      (r.goal ∈ db.goals ∧ r.goal.userId = uid ∧
       r.updatesCount = updatesCount db r.goal.id ∧ r.latestUpdate = latestUpdate db r.goal)) ∧
    (list_goals_for_user uid db).Pairwise
      (fun a b => b.goal.lastUpdated ≤ a.goal.lastUpdated) ∧
    (∀ g, goalActivities db g.id = [] → latestUpdate db g = g.lastUpdated) ∧
    (list_goals_for_user 1 exDbS2).map (fun r => (r.goal.title, r.updatesCount, r.latestUpdate))
      = [("G1", 1, 6), ("G2", 0, 5)] := by
  refine ⟨?_, ?_, ?_, by decide⟩
  · intro r
    constructor
    · intro hr
      rw [list_goals_for_user, List.mem_insertionSort] at hr
      obtain ⟨g, hg, hfg⟩ := List.mem_map.mp hr
      obtain ⟨hgm, hp⟩ := List.mem_filter.mp hg
      have huid : g.userId = uid := by simpa using hp
      subst hfg
      exact ⟨hgm, huid, rfl, rfl⟩
    · rintro ⟨hmem, huid, hcnt, hlat⟩
      rw [list_goals_for_user, List.mem_insertionSort]
      refine List.mem_map.mpr ⟨r.goal, List.mem_filter.mpr ⟨hmem, by simp [huid]⟩, ?_⟩
      cases r with
      | mk g uc lu =>
        simp only at hcnt hlat
        simp [hcnt, hlat]
  · exact List.sorted_insertionSort
      (keyDesc (fun r : UserGoalRow => r.goal.lastUpdated)) _
  · intro g h
    rw [latestUpdate, h]
    rfl

theorem mem_get_all_goals (viewerRole : String) (viewerId : Option Nat) (db : DB) (g : Goal) :
    (∃ r ∈ get_all_goals viewerRole viewerId db, r.goal = g) ↔
      (g ∈ db.goals ∧ goalVisible viewerRole viewerId g = true ∧
        ∃ u ∈ db.users, u.id = g.userId) := by
  constructor
  · rintro ⟨r, hr, hrg⟩
    rw [get_all_goals, List.mem_insertionSort] at hr
    obtain ⟨g2, hg2, hrow⟩ := List.mem_flatMap.mp hr
    obtain ⟨hg2m, hg2v⟩ := List.mem_filter.mp hg2
    obtain ⟨u, hu, hru⟩ := List.mem_map.mp hrow
    have hgg : g2 = g := by
      rw [← hrg, ← hru]
    subst hgg
    obtain ⟨hum, hup⟩ := List.mem_filter.mp hu
    exact ⟨hg2m, hg2v, u, hum, by simpa using hup⟩
  · rintro ⟨hm, hv, u, hu, huid⟩
    refine ⟨⟨g, u.name, u.role, updatesCount db g.id, latestUpdate db g⟩, ?_, rfl⟩
    rw [get_all_goals, List.mem_insertionSort]
    refine List.mem_flatMap.mpr ⟨g, List.mem_filter.mpr ⟨hm, hv⟩, ?_⟩
    exact List.mem_map.mpr ⟨u, List.mem_filter.mpr ⟨hu, by simp [huid]⟩, rfl⟩

theorem goalVisible_iff (viewerRole : String) (viewerId : Option Nat) (g : Goal) :
    goalVisible viewerRole viewerId g = true ↔
      (viewerRole = "mentor" ∨ g.visibility = "public" ∨ viewerId = some g.userId) := by
  rw [goalVisible.eq_def]
  by_cases hr : viewerRole = "mentor"
  · simp [hr]
  · cases viewerId with
    | none => simp [hr]
    | some v =>
      simp [hr]
      constructor
      · rintro (h | h)
        · exact Or.inl h
        · exact Or.inr h.symm
      · rintro (h | h)
        · exact Or.inl h
        · exact Or.inr h.symm

/-- C1: a goal appears in the get_all_goals listing exactly when it exists
and the viewer may see it — any goal for a mentor viewer whatever the
viewer id (present or absent), public goals plus the viewer's own goals for
an identified non-mentor viewer, and only public goals for an anonymous
viewer; in particular a private goal of user A appears for a student viewer
B exactly when B = A, and always appears for a mentor.  The hypothesis is
the foreign-key invariant: every goal's owner exists in the users table. -/
theorem get_all_goals_visibility_spec (db : DB) (g : Goal)
    (hfk : ∀ g2 ∈ db.goals, ∃ u ∈ db.users, u.id = g2.userId) :
    (∀ viewerRole viewerId,
      (∃ r ∈ get_all_goals viewerRole viewerId db, r.goal = g) ↔
        (g ∈ db.goals ∧
          (viewerRole = "mentor" ∨ g.visibility = "public" ∨ viewerId = some g.userId))) ∧
    (g ∈ db.goals → g.visibility = "private" →
      (∀ b, (∃ r ∈ get_all_goals "student" (some b) db, r.goal = g) ↔ g.userId = b) ∧
      (∀ viewerId, ∃ r ∈ get_all_goals "mentor" viewerId db, r.goal = g)) := by
  have hiff : ∀ viewerRole viewerId,
      (∃ r ∈ get_all_goals viewerRole viewerId db, r.goal = g) ↔
        (g ∈ db.goals ∧
          (viewerRole = "mentor" ∨ g.visibility = "public" ∨ viewerId = some g.userId)) := by
    intro viewerRole viewerId
    rw [mem_get_all_goals, goalVisible_iff]
    constructor
    · rintro ⟨hm, hv, -⟩
      exact ⟨hm, hv⟩
    · rintro ⟨hm, hv⟩
      exact ⟨hm, hv, hfk g hm⟩
  refine ⟨hiff, ?_⟩
  intro hm hpriv
  constructor
  · intro b
    have h1 : ("student" : String) ≠ "mentor" := by decide
    have h2 : ("private" : String) ≠ "public" := by decide
    rw [hiff "student" (some b)]
    simp [hm, hpriv, h1, h2, eq_comm]
  · intro viewerId
    exact (hiff "mentor" viewerId).mpr ⟨hm, Or.inl rfl⟩

theorem get_all_goals_visibility_spec_witness :
    ∃ r ∈ get_all_goals "mentor" none exDbG,
      r.goal = ⟨1, 1, "Secret", none, none, "In progress", "private", 4, 4⟩ :=
  ((get_all_goals_visibility_spec exDbG
      ⟨1, 1, "Secret", none, none, "In progress", "private", 4, 4⟩
      (by decide)).2 (by decide) rfl).2 none

theorem mem_feedJoin (db : DB) (a : Activity) (g : Goal) (u : User) :
    (a, g, u) ∈ feedJoin db ↔
      (a ∈ db.activities ∧ g ∈ db.goals ∧ u ∈ db.users ∧
        g.id = a.goalId ∧ u.id = a.userId) := by
  constructor
  · intro hx
    rw [feedJoin] at hx
    obtain ⟨a2, ha2, hx2⟩ := List.mem_flatMap.mp hx
    obtain ⟨g2, hg2, hx3⟩ := List.mem_flatMap.mp hx2
    obtain ⟨u2, hu2, hx4⟩ := List.mem_map.mp hx3
    obtain ⟨he1, he2, he3⟩ : a2 = a ∧ g2 = g ∧ u2 = u := by
      simpa [Prod.ext_iff] using hx4
    subst he1
    subst he2
    subst he3
    obtain ⟨hgm, hgid⟩ := List.mem_filter.mp hg2
    obtain ⟨hum, huid⟩ := List.mem_filter.mp hu2
    exact ⟨ha2, hgm, hum, by simpa using hgid, by simpa using huid⟩
  · rintro ⟨ha, hg, hu, hgid, huid⟩
    rw [feedJoin]
    refine List.mem_flatMap.mpr ⟨a, ha, ?_⟩
    refine List.mem_flatMap.mpr ⟨g, List.mem_filter.mpr ⟨hg, by simp [hgid]⟩, ?_⟩
    exact List.mem_map.mpr ⟨u, List.mem_filter.mpr ⟨hu, by simp [huid]⟩, rfl⟩

theorem feedClause_eq (viewerRole : String) (v : Nat) (x : Activity × Goal × User)
    (hrole : viewerRole ≠ "mentor") :
    feedClause viewerRole (some v) x = true ↔
      (x.2.1.visibility = "public" ∨ x.1.userId = v) := by
  simp [feedClause, hrole]

/-- C3: for an identified non-mentor viewer, the recent-activity feed
contains exactly the joined activities whose goal is public or whose author
is the viewer (the own-inclusion test is on the activity's author, not the
goal's owner), each entry carrying the goal title and the author's name and
role, ordered newest first, with at most limit entries; the completeness
direction is stated under the hypothesis that the visible rows fit within
the limit (beyond it the cap necessarily drops the oldest rows). -/
theorem get_recent_activity_spec (db : DB) (v : Nat) (viewerRole : String) (limit : Nat)
    (hrole : viewerRole ≠ "mentor")
    (hcap : ((feedJoin db).filter (feedClause viewerRole (some v))).length ≤ limit) :
    (get_recent_activity limit (some v) viewerRole db).length ≤ limit ∧
    (get_recent_activity limit (some v) viewerRole db).Pairwise
      (fun x y => y.activity.createdAt ≤ x.activity.createdAt) ∧
    (∀ fr ∈ get_recent_activity limit (some v) viewerRole db,
      ∃ a ∈ db.activities, ∃ g ∈ db.goals, ∃ u ∈ db.users,
        g.id = a.goalId ∧ u.id = a.userId ∧
        (g.visibility = "public" ∨ a.userId = v) ∧
        fr = ⟨a, g.title, u.name, u.role⟩) ∧
    (∀ a ∈ db.activities, ∀ g ∈ db.goals, ∀ u ∈ db.users,
      g.id = a.goalId → u.id = a.userId →
      (g.visibility = "public" ∨ a.userId = v) →
      ∃ fr ∈ get_recent_activity limit (some v) viewerRole db,
        fr = ⟨a, g.title, u.name, u.role⟩) := by
  have hsorted := List.sorted_insertionSort
    (keyDesc (fun x : Activity × Goal × User => x.1.createdAt))
    ((feedJoin db).filter (feedClause viewerRole (some v)))
  refine ⟨?_, ?_, ?_, ?_⟩
  · rw [get_recent_activity]
    rw [List.length_map, List.length_take]
    exact min_le_left _ _
  · rw [get_recent_activity]
    refine List.Pairwise.map _ ?_ (List.Pairwise.sublist (List.take_sublist _ _) hsorted)
    intro x y hxy
    exact hxy
  · intro fr hfr
    rw [get_recent_activity] at hfr
    obtain ⟨x, hx, hfx⟩ := List.mem_map.mp hfr
    have hxs : x ∈ (feedJoin db).filter (feedClause viewerRole (some v)) := by
      have := (List.take_sublist _ _).subset hx
      rwa [List.mem_insertionSort] at this
    obtain ⟨hxj, hxc⟩ := List.mem_filter.mp hxs
    rcases x with ⟨a, g, u⟩
    obtain ⟨ha, hg, hu, hgid, huid⟩ := (mem_feedJoin db a g u).mp hxj
    refine ⟨a, ha, g, hg, u, hu, hgid, huid, ?_, hfx.symm⟩
    exact (feedClause_eq viewerRole v (a, g, u) hrole).mp hxc
  · intro a ha g hg u hu hgid huid hvis
    have hmem : (a, g, u) ∈ (feedJoin db).filter (feedClause viewerRole (some v)) :=
      List.mem_filter.mpr ⟨(mem_feedJoin db a g u).mpr ⟨ha, hg, hu, hgid, huid⟩,
        (feedClause_eq viewerRole v (a, g, u) hrole).mpr hvis⟩
    have hlen : (List.insertionSort
        (keyDesc (fun x : Activity × Goal × User => x.1.createdAt))
        ((feedJoin db).filter (feedClause viewerRole (some v)))).length ≤ limit := by
      rw [(List.perm_insertionSort _ _).length_eq]
      exact hcap
    rw [get_recent_activity, List.take_of_length_le hlen]
    refine ⟨⟨a, g.title, u.name, u.role⟩, ?_, rfl⟩
    refine List.mem_map.mpr ⟨(a, g, u), ?_, rfl⟩
    rw [List.mem_insertionSort]
    exact hmem

theorem get_recent_activity_spec_witness :
    ∃ fr ∈ get_recent_activity 25 (some 3) "student" exDbF,
      fr = ⟨⟨3, 1, 3, "mentor note", none, false, 7⟩, "Secret", "Mia", "mentor"⟩ :=
  (get_recent_activity_spec exDbF 3 "student" 25 (by decide) (by decide)).2.2.2
    ⟨3, 1, 3, "mentor note", none, false, 7⟩ (by decide)
    ⟨1, 1, "Secret", none, none, "Completed", "private", 4, 7⟩ (by decide)
    ⟨3, "Mia", "mia@lab.edu", "mentor", "h3", 3⟩ (by decide)
    rfl rfl (Or.inr rfl)
